import Mathlib

/-!
Shallow embedding of the bonding-curve pricing core of the repository:
`persona-contracts/charts/bonding_curve.py` (integer 33x reference curve),
`persona-contracts/charts/66.py` (target-multiplier parameterization),
`persona-contracts/charts/fee_reduction.py` (quadratic fee-discount
schedule), and the `Decimal`-based `BondingCurve` class of
`contracts/charts/bonding_curve.py`.

Conventions of the embedding:
* Python's arbitrary-precision `int` is `ℤ`; Python's `//` (floor division)
  is `Int.fdiv`; a `ZeroDivisionError` raised by `//` is modelled by
  returning `none`.
* `Decimal` arithmetic (50 significant digits) in the `BondingCurve` class
  is modelled as exact rational arithmetic over `ℚ`; the facts proved about
  it depend only on its control flow (an early-out branch and a `min`
  clamp), not on rounding.  Rational division by zero is total in Lean
  (`x / 0 = 0`) where `Decimal` would raise; no proved fact depends on that
  corner.
* Trailing float conversions done purely for display (`price / PRECISION`
  in `get_current_price`, chart rendering) are the presentation boundary
  and are not part of the embedded value; the integer fixed-point value the
  source computes just before converting is what the functions return.
-/

/-- Constant `PRECISION = 10**18` from `persona-contracts/charts/bonding_curve.py`. -/
def PRECISION : ℤ := 10 ^ 18

/-- Constant `SELL_FEE_BPS = 10` from `persona-contracts/charts/bonding_curve.py`. -/
def SELL_FEE_BPS : ℤ := 10

/-- Constant `BPS_DIVISOR = 10000` from `persona-contracts/charts/bonding_curve.py`. -/
def BPS_DIVISOR : ℤ := 10000

/-- The expression `virtual_buffer = (reserve_total * 1000) // 4745` computed
at the top of `get_virtual_reserves` in
`persona-contracts/charts/bonding_curve.py`, named so the theorems below can
refer to it. -/
def virtual_buffer (reserve_total : ℤ) : ℤ := (reserve_total * 1000).fdiv 4745

/-- `get_virtual_reserves(reserve_sold, reserve_total)` from
`persona-contracts/charts/bonding_curve.py`: virtual token reserve
`reserve_total - reserve_sold + virtual_buffer`, constant
`k = (reserve_total + virtual_buffer)^2` from the initial state, and
`virtual_eth = k // virtual_token`.  The final floor division raises
`ZeroDivisionError` in Python when `virtual_token == 0`, modelled as
`none`. -/
def get_virtual_reserves (reserve_sold reserve_total : ℤ) : Option (ℤ × ℤ) :=
  let vb := virtual_buffer reserve_total
  let virtual_token := reserve_total - reserve_sold + vb
  let initial_reserve := reserve_total + vb
  let k := initial_reserve * initial_reserve
  if virtual_token = 0 then none
  else some (virtual_token, k.fdiv virtual_token)

/-- `get_current_price(reserve_sold, reserve_total)` from
`persona-contracts/charts/bonding_curve.py`, up to the fixed-point value
`price = (virtual_eth * PRECISION) // virtual_token`; the source's final
`price / PRECISION` is a float conversion for display only. -/
def get_current_price (reserve_sold reserve_total : ℤ) : Option ℤ :=
  match get_virtual_reserves reserve_sold reserve_total with
  | none => none
  | some (virtual_token, virtual_eth) =>
    some ((virtual_eth * PRECISION).fdiv virtual_token)

/-- `calculate_cost_between(from_tokens, to_tokens, total_supply)` from
`persona-contracts/charts/bonding_curve.py`: `0` for degenerate ranges,
otherwise the difference of the virtual ETH reserves at the two
endpoints. -/
def calculate_cost_between (from_tokens to_tokens total_supply : ℤ) : Option ℤ :=
  if from_tokens ≥ to_tokens then some 0
  else
    match get_virtual_reserves from_tokens total_supply,
          get_virtual_reserves to_tokens total_supply with
    | some (_, virtual_eth_start), some (_, virtual_eth_end) =>
      some (virtual_eth_end - virtual_eth_start)
    | _, _ => none

/-- `calculate_amount_out_for_sell(amount_in, reserve_sold, reserve_total)`
from `persona-contracts/charts/bonding_curve.py`: grow the virtual token
reserve by `amount_in`, recompute virtual ETH from `k = vt * ve`, take the
difference and subtract the `SELL_FEE_BPS` fee.  The inner floor division
raises `ZeroDivisionError` when `virtual_token + amount_in == 0`, modelled
as `none`. -/
def calculate_amount_out_for_sell (amount_in reserve_sold reserve_total : ℤ) :
    Option ℤ :=
  match get_virtual_reserves reserve_sold reserve_total with
  | none => none
  | some (virtual_token, virtual_eth) =>
    let new_virtual_token := virtual_token + amount_in
    if new_virtual_token = 0 then none
    else
      let k := virtual_token * virtual_eth
      let new_virtual_eth := k.fdiv new_virtual_token
      let eth_before_fee := virtual_eth - new_virtual_eth
      let fee := (eth_before_fee * SELL_FEE_BPS).fdiv BPS_DIVISOR
      some (eth_before_fee - fee)

/-- The `divisor_scaled = int(divisor * 1000)` computation of
`get_virtual_reserves` in `persona-contracts/charts/66.py`, where
`divisor = np.sqrt(target_multiplier) - 1`.  `int(...)` truncates, so the
value is `⌊1000 * (sqrt M - 1)⌋ = Nat.sqrt (M * 10^6) - 1000`; for the
multipliers the script uses (33 and 66) the float computation is several
orders of magnitude away from an integer boundary, so the correctly rounded
`float64` square root yields the same truncated integer as the exact one. -/
def divisor_scaled (target_multiplier : ℕ) : ℤ :=
  (Nat.sqrt (target_multiplier * 1000000) : ℤ) - 1000

/-- `get_virtual_reserves(reserve_sold, reserve_total, target_multiplier)`
from `persona-contracts/charts/66.py`: same shape as the 33x reference
curve but with the buffer divisor derived from `target_multiplier` via a
square root instead of the hard-coded `4745`.  Either division raising
`ZeroDivisionError` is modelled as `none`. -/
def get_virtual_reserves66 (reserve_sold reserve_total : ℤ)
    (target_multiplier : ℕ) : Option (ℤ × ℤ) :=
  let ds := divisor_scaled target_multiplier
  if ds = 0 then none
  else
    let vb := (reserve_total * 1000).fdiv ds
    let virtual_token := reserve_total - reserve_sold + vb
    let initial_reserve := reserve_total + vb
    let k := initial_reserve * initial_reserve
    if virtual_token = 0 then none
    else some (virtual_token, k.fdiv virtual_token)

/-- Modelled from the spec: `quoteBuy(amountIn, reserveSold, params)` for the
integer curve.  The repository's only buy-side quote lives in the `Decimal`
visualizer class (`contracts/charts/bonding_curve.py`) with its own fixed
parameter set, so the buy quote against the integer 33x curve is absent from
the source; following spec section 4.4 it returns `0` at exhaustion
(`reserveSold ≥ totalSupply`), applies the constant-product swap formula
`tokenOut = virtualToken * amountIn / (virtualEth + amountIn)` with
truncating division (section 4.1), and clamps the output to
`totalSupply - reserveSold`.  The pricing multiplier is the identity in this
parameterization (the integer curve has none). -/
def quoteBuy (amount_in reserve_sold reserve_total : ℤ) : Option ℤ :=
  if reserve_total ≤ reserve_sold then some 0
  else
    match get_virtual_reserves reserve_sold reserve_total with
    | none => none
    | some (virtual_token, virtual_eth) =>
      if virtual_eth + amount_in = 0 then none
      else
        some (min ((virtual_token * amount_in).fdiv (virtual_eth + amount_in))
          (reserve_total - reserve_sold))

/-- The `BondingCurve` class of `contracts/charts/bonding_curve.py`
(`Decimal` state modelled as `ℚ`). -/
structure BondingCurve where
  curve_multiplier : ℚ
  pricing_multiplier : ℚ
  total_supply : ℚ
  precision : ℚ

/-- `BondingCurve.__init__(curve_multiplier, pricing_multiplier)` from
`contracts/charts/bonding_curve.py`: the pricing multiplier argument is
scaled down by `1e18`, the total supply is fixed at `333_333_333 * 1e18`. -/
def mkBondingCurve (curve_multiplier pricing_multiplier : ℚ) : BondingCurve :=
  { curve_multiplier := curve_multiplier
    pricing_multiplier := pricing_multiplier / 10 ^ 18
    total_supply := 333333333 * 10 ^ 18
    precision := 10 ^ 18 }

/-- `BondingCurve.get_virtual_reserves(reserve_sold, reserve_total)` from
`contracts/charts/bonding_curve.py`: the buffer divisor is the configured
`curve_multiplier` and all divisions are exact (`Decimal`, modelled as
`ℚ`). -/
def BondingCurve.get_virtual_reserves (bc : BondingCurve)
    (reserve_sold reserve_total : ℚ) : ℚ × ℚ :=
  let virtual_buffer := reserve_total * 1000 / bc.curve_multiplier
  let virtual_token := reserve_total - reserve_sold + virtual_buffer
  let initial_reserve := reserve_total + virtual_buffer
  let k := initial_reserve * initial_reserve
  let virtual_eth := k / virtual_token
  (virtual_token, virtual_eth)

/-- `BondingCurve.calculate_amount_out(amount_in, reserve_sold)` from
`contracts/charts/bonding_curve.py`: `0` once the curve is exhausted,
otherwise the constant-product output on the pricing-multiplier-adjusted
input, capped at the remaining tokens via `min`. -/
def BondingCurve.calculate_amount_out (bc : BondingCurve)
    (amount_in reserve_sold : ℚ) : ℚ :=
  if bc.total_supply ≤ reserve_sold then 0
  else
    let p := bc.get_virtual_reserves reserve_sold bc.total_supply
    let adjusted_amount_in := amount_in * bc.pricing_multiplier
    let numerator := p.1 * adjusted_amount_in
    let denominator := p.2 + adjusted_amount_in
    let virtual_token_out := numerator / denominator
    let tokens_remaining := bc.total_supply - reserve_sold
    min virtual_token_out tokens_remaining

/-- Constant `MIN_AMICA_FOR_REDUCTION = 1000` from
`persona-contracts/charts/fee_reduction.py`. -/
def MIN_AMICA_FOR_REDUCTION : ℚ := 1000

/-- Constant `MAX_AMICA_FOR_REDUCTION = 1_000_000` from
`persona-contracts/charts/fee_reduction.py`. -/
def MAX_AMICA_FOR_REDUCTION : ℚ := 1000000

/-- Constant `BASE_FEE = 10000` from
`persona-contracts/charts/fee_reduction.py`. -/
def BASE_FEE : ℚ := 10000

/-- Constant `MAX_DISCOUNTED_FEE = 0` from
`persona-contracts/charts/fee_reduction.py`. -/
def MAX_DISCOUNTED_FEE : ℚ := 0

/-- `calculate_fee(amica_balance)` from
`persona-contracts/charts/fee_reduction.py`: base fee below the minimum
threshold, fully discounted fee at or above the maximum threshold, and a
quadratic interpolation in between; the result is scaled to a percentage by
the final `/ 10000` exactly as in the source (whose float arithmetic is
exact on these rationals at the scales involved; the engine domain is
exact fixed-point per spec section 4.1). -/
def calculate_fee (amica_balance : ℚ) : ℚ :=
  if amica_balance < MIN_AMICA_FOR_REDUCTION then BASE_FEE / 10000
  else if MAX_AMICA_FOR_REDUCTION ≤ amica_balance then MAX_DISCOUNTED_FEE / 10000
  else
    let range_val := MAX_AMICA_FOR_REDUCTION - MIN_AMICA_FOR_REDUCTION
    let user_position := amica_balance - MIN_AMICA_FOR_REDUCTION
    let progress := user_position / range_val
    let quadratic_progress := progress ^ 2
    let fee_range := BASE_FEE - MAX_DISCOUNTED_FEE
    let fee_reduction := fee_range * quadratic_progress
    (BASE_FEE - fee_reduction) / 10000

/-! ### Division helper lemmas (Euclidean division, positive divisor) -/

/-- Floor property of `Int` division: `c * (x / c) ≤ x` for `0 < c`. -/
lemma int_mul_ediv_le {x c : ℤ} (hc : 0 < c) : c * (x / c) ≤ x := by
  have h := Int.ediv_add_emod x c
  have h2 := Int.emod_nonneg x (ne_of_gt hc)
  linarith

/-- Floor property of `Int` division: `x < c * (x / c) + c` for `0 < c`. -/
lemma int_lt_mul_ediv_add {x c : ℤ} (hc : 0 < c) : x < c * (x / c) + c := by
  have h := Int.ediv_add_emod x c
  have h2 := Int.emod_lt_of_pos x hc
  linarith

/-- `Int` division of a fixed nonnegative numerator is antitone in the
divisor. -/
lemma int_ediv_le_ediv_left {x c d : ℤ} (hx : 0 ≤ x) (hd : 0 < d)
    (hdc : d ≤ c) : x / c ≤ x / d := by
  have hc : 0 < c := lt_of_lt_of_le hd hdc
  rw [Int.le_ediv_iff_mul_le hd]
  have h0 : 0 ≤ x / c := Int.ediv_nonneg hx hc.le
  calc x / c * d ≤ x / c * c := by (exact mul_le_mul_of_nonneg_left hdc h0)
    _ ≤ x := by
        have := int_mul_ediv_le (x := x) hc
        linarith [this, mul_comm (x / c) c]

/-! ### Claims C9, C10, C3: error behaviour of the integer curve -/

/-- Claim C9 (counterexample): `get_virtual_reserves` does not raise for
`reserveSold > reserveTotal`; at `reserveSold = 1000001 > 1000000 =
reserveTotal` it returns a reserve pair normally. -/
theorem virtualReserves_returns_on_oversold :
    get_virtual_reserves 1000001 1000000 = some (210747, 6955784) := by
  decide

/-- Claim C9 (amended): `get_virtual_reserves` performs no precondition
check at all; for any inputs, including `reserveSold > reserveTotal`, it
returns normally exactly when the virtual token reserve is nonzero, and
raises (`none`) exactly when it is zero. -/
theorem virtualReserves_no_domain_check (reserve_sold reserve_total : ℤ) :
    (reserve_total - reserve_sold + virtual_buffer reserve_total ≠ 0 →
      (get_virtual_reserves reserve_sold reserve_total).isSome) ∧
    (reserve_total - reserve_sold + virtual_buffer reserve_total = 0 →
      get_virtual_reserves reserve_sold reserve_total = none) := by
  constructor
  · intro h
    simp only [get_virtual_reserves, if_neg h, Option.isSome_some]
  · intro h
    simp only [get_virtual_reserves, if_pos h]

/-- Witness for `virtualReserves_no_domain_check` at the oversold input
`reserveSold = 1000001`, `reserveTotal = 1000000`. -/
theorem virtualReserves_no_domain_check_witness :
    (get_virtual_reserves 1000001 1000000).isSome :=
  (virtualReserves_no_domain_check 1000001 1000000).1 (by decide)

/-- Claim C10: on the valid domain `0 ≤ reserveSold ≤ reserveTotal` with a
positive virtual buffer, the virtual token reserve is strictly positive
(so the truncating division computing `virtual_eth` never divides by
zero), and it equals the buffer exactly at `reserveSold = reserveTotal`;
moreover without the positive-buffer hypothesis the division is unguarded:
at `reserveSold = reserveTotal = 1` the buffer is `0` and the call
raises. -/
theorem virtualToken_pos :
    (∀ reserve_sold reserve_total : ℤ, 0 ≤ reserve_sold →
      reserve_sold ≤ reserve_total → 0 < virtual_buffer reserve_total →
      ∃ vt ve, get_virtual_reserves reserve_sold reserve_total = some (vt, ve) ∧
        0 < vt ∧
        (reserve_sold = reserve_total → vt = virtual_buffer reserve_total)) ∧
    get_virtual_reserves 1 1 = none := by
  constructor
  · intro s T _ hsT hb
    have hvt : 0 < T - s + virtual_buffer T := by linarith
    refine ⟨T - s + virtual_buffer T,
      ((T + virtual_buffer T) * (T + virtual_buffer T)).fdiv
        (T - s + virtual_buffer T), ?_, hvt, ?_⟩
    · simp only [get_virtual_reserves, if_neg (ne_of_gt hvt)]
    · intro h
      rw [h]
      ring
  · decide

/-- Witness for `virtualToken_pos` at `reserveSold = 2`,
`reserveTotal = 1000`. -/
theorem virtualToken_pos_witness :
    ∃ vt ve, get_virtual_reserves 2 1000 = some (vt, ve) ∧ 0 < vt ∧
      ((2 : ℤ) = 1000 → vt = virtual_buffer 1000) :=
  virtualToken_pos.1 2 1000 (by decide) (by decide) (by decide)

/-- Claim C3 (counterexample): `calculate_amount_out_for_sell` does not
raise on a non-positive trade amount against an empty curve; at
`amountIn = 0`, `reserveSold = 0` it returns `0` normally. -/
theorem sell_returns_on_invalid_amount :
    calculate_amount_out_for_sell 0 0 1000000 = some 0 := by
  decide

/-- Claim C3 (amended): `calculate_amount_out_for_sell` performs no input
validation: whenever the two divisors involved are nonzero it returns
normally — in particular for `amountIn ≤ 0` and for `reserveSold = 0` —
and at `amountIn = 0` the returned quote is exactly `0`.  Its only failure
mode is a `ZeroDivisionError` from one of the floor divisions. -/
theorem sell_no_domain_check (amount_in reserve_sold reserve_total : ℤ)
    (hvt : reserve_total - reserve_sold + virtual_buffer reserve_total ≠ 0)
    (hnvt : reserve_total - reserve_sold + virtual_buffer reserve_total +
      amount_in ≠ 0) :
    (calculate_amount_out_for_sell amount_in reserve_sold reserve_total).isSome ∧
    (amount_in = 0 →
      calculate_amount_out_for_sell amount_in reserve_sold reserve_total =
        some 0) := by
  constructor
  · simp only [calculate_amount_out_for_sell, get_virtual_reserves,
      if_neg hvt, if_neg hnvt, Option.isSome_some]
  · intro h0
    subst h0
    have hnvt' : reserve_total - reserve_sold + virtual_buffer reserve_total +
        0 ≠ 0 := hnvt
    simp only [calculate_amount_out_for_sell, get_virtual_reserves,
      if_neg hvt, if_neg hnvt']
    rw [add_zero]
    rw [Int.mul_fdiv_cancel_left _ hvt]
    simp [Int.zero_fdiv]

/-- Witness for `sell_no_domain_check` at `amountIn = 0`,
`reserveSold = 0`, `reserveTotal = 2000`. -/
theorem sell_no_domain_check_witness :
    (calculate_amount_out_for_sell 0 0 2000).isSome ∧
      ((0 : ℤ) = 0 → calculate_amount_out_for_sell 0 0 2000 = some 0) :=
  sell_no_domain_check 0 0 2000 (by decide) (by decide)

/-! ### Claim C1: constant-product invariant up to truncation -/

/-- Claim C1 (counterexample): at `reserveSold = 2`,
`reserveTotal = 1000000` the product `virtualToken * virtualEth` differs
from `k = (reserveTotal + virtualBuffer)^2` by `4` units, not at most
one. -/
theorem virtualReserves_product_gap_exceeds_one :
    get_virtual_reserves 2 1000000 = some (1210746, 1210750) ∧
    ¬ (|1210746 * 1210750 -
        (1000000 + virtual_buffer 1000000) * (1000000 + virtual_buffer 1000000)| ≤
      (1 : ℤ)) := by
  constructor
  · decide
  · decide

/-- Claim C1 (amended): on the valid domain with a positive buffer, the
product `virtualToken * virtualEth` never exceeds
`k = (reserveTotal + virtualBuffer)^2` and falls short of it by strictly
less than `virtualToken` — the truncation error of the final integer
division is one unit of the quotient, i.e. up to `virtualToken - 1`
absolute units, not one absolute unit. -/
theorem virtualReserves_product_within_divisor
    (reserve_sold reserve_total vt ve : ℤ) (h0 : 0 ≤ reserve_sold)
    (hsT : reserve_sold ≤ reserve_total)
    (hb : 0 < virtual_buffer reserve_total)
    (h : get_virtual_reserves reserve_sold reserve_total = some (vt, ve)) :
    vt * ve ≤ (reserve_total + virtual_buffer reserve_total) *
      (reserve_total + virtual_buffer reserve_total) ∧
    (reserve_total + virtual_buffer reserve_total) *
      (reserve_total + virtual_buffer reserve_total) < vt * ve + vt := by
  have hvt : 0 < reserve_total - reserve_sold + virtual_buffer reserve_total := by
    linarith
  set b := virtual_buffer reserve_total with hbdef
  set k := (reserve_total + b) * (reserve_total + b) with hkdef
  have hk : 0 ≤ k := mul_self_nonneg _
  simp only [get_virtual_reserves, ← hbdef, ← hkdef, if_neg (ne_of_gt hvt),
    Option.some.injEq, Prod.mk.injEq] at h
  obtain ⟨hvt_eq, hve_eq⟩ := h
  subst hve_eq
  subst hvt_eq
  rw [Int.fdiv_eq_ediv k hvt.le]
  set vt0 := reserve_total - reserve_sold + b with hvt0
  constructor
  · have := int_mul_ediv_le (x := k) hvt
    linarith [mul_comm vt0 (k / vt0)]
  · have := int_lt_mul_ediv_add (x := k) hvt
    linarith [mul_comm vt0 (k / vt0)]

/-- Witness for `virtualReserves_product_within_divisor` at
`reserveSold = 1`, `reserveTotal = 1000`. -/
theorem virtualReserves_product_within_divisor_witness :
    1209 * 1211 ≤ (1000 + virtual_buffer 1000) * (1000 + virtual_buffer 1000) ∧
    (1000 + virtual_buffer 1000) * (1000 + virtual_buffer 1000) <
      1209 * 1211 + 1209 :=
  virtualReserves_product_within_divisor 1 1000 1209 1211 (by decide)
    (by decide) (by decide) (by decide)

/-! ### Claims C5, C6: monotone spot price, additive cost -/

/-- Shape of the `some` branch of `get_virtual_reserves`. -/
lemma gvr_some {reserve_sold reserve_total : ℤ}
    (h : reserve_total - reserve_sold + virtual_buffer reserve_total ≠ 0) :
    get_virtual_reserves reserve_sold reserve_total =
      some (reserve_total - reserve_sold + virtual_buffer reserve_total,
        ((reserve_total + virtual_buffer reserve_total) *
          (reserve_total + virtual_buffer reserve_total)).fdiv
          (reserve_total - reserve_sold + virtual_buffer reserve_total)) := by
  simp only [get_virtual_reserves, if_neg h]

/-- Claim C5: the integer fixed-point spot price
`(virtualEth * PRECISION) // virtualToken` is monotonically non-decreasing
in `reserveSold` over the valid domain (positive buffer); the source's
trailing float conversion `/ PRECISION` divides by a positive constant, so
it preserves the ordering. -/
theorem spotPrice_mono (a b T : ℤ) (ha : 0 ≤ a) (hab : a < b) (hbT : b ≤ T)
    (hbuf : 0 < virtual_buffer T) :
    ∃ pa pb, get_current_price a T = some pa ∧
      get_current_price b T = some pb ∧ pa ≤ pb := by
  set vb := virtual_buffer T with hvb
  have hvta : 0 < T - a + vb := by linarith
  have hvtb : 0 < T - b + vb := by linarith
  set k := (T + vb) * (T + vb) with hk
  have hk0 : 0 ≤ k := mul_self_nonneg _
  have hP : (0 : ℤ) < PRECISION := by norm_num [PRECISION]
  refine ⟨(k.fdiv (T - a + vb) * PRECISION).fdiv (T - a + vb),
    (k.fdiv (T - b + vb) * PRECISION).fdiv (T - b + vb), ?_, ?_, ?_⟩
  · simp only [get_current_price, gvr_some (ne_of_gt hvta), ← hvb, ← hk]
  · simp only [get_current_price, gvr_some (ne_of_gt hvtb), ← hvb, ← hk]
  · rw [Int.fdiv_eq_ediv k hvta.le, Int.fdiv_eq_ediv k hvtb.le,
      Int.fdiv_eq_ediv _ hvta.le, Int.fdiv_eq_ediv _ hvtb.le]
    have h1 : k / (T - a + vb) ≤ k / (T - b + vb) :=
      int_ediv_le_ediv_left hk0 hvtb (by linarith)
    have h2 : k / (T - a + vb) * PRECISION ≤ k / (T - b + vb) * PRECISION :=
      mul_le_mul_of_nonneg_right h1 hP.le
    have h3 : 0 ≤ k / (T - b + vb) * PRECISION :=
      mul_nonneg (Int.ediv_nonneg hk0 hvtb.le) hP.le
    calc k / (T - a + vb) * PRECISION / (T - a + vb)
        ≤ k / (T - b + vb) * PRECISION / (T - a + vb) :=
          Int.ediv_le_ediv hvta h2
      _ ≤ k / (T - b + vb) * PRECISION / (T - b + vb) :=
          int_ediv_le_ediv_left h3 hvtb (by linarith)

/-- Witness for `spotPrice_mono` at `a = 1`, `b = 2`, `T = 1000`. -/
theorem spotPrice_mono_witness :
    ∃ pa pb, get_current_price 1 1000 = some pa ∧
      get_current_price 2 1000 = some pb ∧ pa ≤ pb :=
  spotPrice_mono 1 2 1000 (by decide) (by decide) (by decide) (by decide)

/-- Shape of the non-degenerate branch of `calculate_cost_between`. -/
lemma cost_some {f t T : ℤ} (hf : 0 ≤ f) (hft : f < t) (htT : t ≤ T)
    (hbuf : 0 < virtual_buffer T) :
    calculate_cost_between f t T =
      some (((T + virtual_buffer T) * (T + virtual_buffer T)).fdiv
          (T - t + virtual_buffer T) -
        ((T + virtual_buffer T) * (T + virtual_buffer T)).fdiv
          (T - f + virtual_buffer T)) := by
  have hvtf : 0 < T - f + virtual_buffer T := by linarith
  have hvtt : 0 < T - t + virtual_buffer T := by linarith
  have hcond : ¬ (f ≥ t) := not_le.mpr hft
  simp only [calculate_cost_between, if_neg hcond, gvr_some (ne_of_gt hvtf),
    gvr_some (ne_of_gt hvtt)]

/-- Claim C6: cost additivity holds exactly despite truncating division
(the cost is a telescoping difference of virtual ETH values), the cost of a
zero-length range is `0`, and any degenerate range `fromSold ≥ toSold`
yields `0` rather than an error. -/
theorem costBetween_additive :
    (∀ a c T : ℤ, 0 ≤ a → a ≤ c → c ≤ T → 0 < virtual_buffer T →
      ∃ x y z, calculate_cost_between 0 c T = some x ∧
        calculate_cost_between 0 a T = some y ∧
        calculate_cost_between a c T = some z ∧ x = y + z) ∧
    (∀ x T : ℤ, calculate_cost_between x x T = some 0) ∧
    (∀ f t T : ℤ, t ≤ f → calculate_cost_between f t T = some 0) := by
  refine ⟨?_, ?_, ?_⟩
  · intro a c T ha hac hcT hbuf
    rcases eq_or_lt_of_le hac with rfl | haclt
    · rcases eq_or_lt_of_le ha with ha0 | hapos
      · refine ⟨0, 0, 0, ?_, ?_, ?_, by ring⟩ <;>
          simp [calculate_cost_between, ← ha0]
      · have hx := cost_some le_rfl hapos hcT hbuf
        have hz : calculate_cost_between a a T = some 0 := by
          simp [calculate_cost_between]
        exact ⟨_, _, 0, hx, hx, hz, by ring⟩
    · have hx := cost_some le_rfl (lt_of_le_of_lt ha haclt) hcT hbuf
      rcases eq_or_lt_of_le ha with rfl | hapos
      · have hy : calculate_cost_between 0 0 T = some 0 := by
          simp [calculate_cost_between]
        exact ⟨_, 0, _, hx, hy, hx, by ring⟩
      · exact ⟨_, _, _, hx, cost_some le_rfl hapos (le_trans haclt.le hcT) hbuf,
          cost_some hapos.le haclt hcT hbuf, by ring⟩
  · intro x T
    simp [calculate_cost_between]
  · intro f t T h
    simp [calculate_cost_between, h]

/-- Witness for `costBetween_additive` at `a = 3`, `c = 7`, `T = 1000`. -/
theorem costBetween_additive_witness :
    ∃ x y z, calculate_cost_between 0 7 1000 = some x ∧
      calculate_cost_between 0 3 1000 = some y ∧
      calculate_cost_between 3 7 1000 = some z ∧ x = y + z :=
  costBetween_additive.1 3 7 1000 (by decide) (by decide) (by decide)
    (by decide)

/-! ### Claim C4: the two buffer-divisor construction modes -/

/-- Claim C4: the `targetMultiplier` construction mode of `66.py` truncates
`1000 * (sqrt 33 - 1) ≈ 4744.56` to `4744`, while the reference 33x curve
of `bonding_curve.py` (and the comment inside `66.py` itself) uses `4745`;
at `reserveTotal = 4744` the two modes return different reserve pairs, so
they are not equivalent encodings. -/
theorem divisor_modes_disagree :
    divisor_scaled 33 = 4744 ∧
    get_virtual_reserves66 0 4744 33 = some (5744, 5744) ∧
    get_virtual_reserves 0 4744 = some (5743, 5743) ∧
    get_virtual_reserves66 0 4744 33 ≠ get_virtual_reserves 0 4744 := by
  have hsq : (5744 : ℕ) = Nat.sqrt 33000000 :=
    Nat.eq_sqrt.mpr ⟨by norm_num, by norm_num⟩
  have hds : divisor_scaled 33 = 4744 := by
    unfold divisor_scaled
    rw [show (33 * 1000000 : ℕ) = 33000000 by norm_num, ← hsq]
    norm_num
  have h66 : get_virtual_reserves66 0 4744 33 = some (5744, 5744) := by
    simp only [get_virtual_reserves66, hds]
    decide
  have h33 : get_virtual_reserves 0 4744 = some (5743, 5743) := by
    decide
  refine ⟨hds, h66, h33, ?_⟩
  rw [h66, h33]
  decide

/-! ### Claim C7: buy-side exhaustion and clamping -/

/-- Claim C7: `BondingCurve.calculate_amount_out` returns `0` (not an
error) once the curve is exhausted (`reserveSold ≥ totalSupply`), and on a
live curve its result never exceeds the remaining sellable supply
`totalSupply - reserveSold`, thanks to the `min` clamp. -/
theorem amountOut_exhaustion_and_clamp (bc : BondingCurve)
    (amount_in reserve_sold : ℚ) :
    (bc.total_supply ≤ reserve_sold →
      bc.calculate_amount_out amount_in reserve_sold = 0) ∧
    (reserve_sold < bc.total_supply →
      bc.calculate_amount_out amount_in reserve_sold ≤
        bc.total_supply - reserve_sold) := by
  constructor
  · intro h
    simp [BondingCurve.calculate_amount_out, if_pos h]
  · intro h
    simp only [BondingCurve.calculate_amount_out, if_neg (not_le.mpr h)]
    exact min_le_right _ _

/-- Witness for `amountOut_exhaustion_and_clamp` with the default CLI
parameters (`curve 10532`, `pricing 333`), a buy of `5` at
`reserveSold = 0`. -/
theorem amountOut_exhaustion_and_clamp_witness :
    (mkBondingCurve 10532 (333 * 10 ^ 18)).calculate_amount_out 5 0 ≤
      (mkBondingCurve 10532 (333 * 10 ^ 18)).total_supply - 0 :=
  (amountOut_exhaustion_and_clamp (mkBondingCurve 10532 (333 * 10 ^ 18)) 5 0).2
    (by norm_num [mkBondingCurve])

/-! ### Claim C8: shape of the fee-discount schedule -/

/-- Value of `calculate_fee` below the minimum threshold. -/
lemma fee_below {bal : ℚ} (h : bal < MIN_AMICA_FOR_REDUCTION) :
    calculate_fee bal = BASE_FEE / 10000 := by
  simp [calculate_fee, if_pos h]

/-- Value of `calculate_fee` at or above the maximum threshold. -/
lemma fee_above {bal : ℚ} (h : MAX_AMICA_FOR_REDUCTION ≤ bal) :
    calculate_fee bal = MAX_DISCOUNTED_FEE / 10000 := by
  have h1 : ¬ (bal < MIN_AMICA_FOR_REDUCTION) := by
    simp only [MIN_AMICA_FOR_REDUCTION, MAX_AMICA_FOR_REDUCTION] at *
    linarith
  simp [calculate_fee, if_neg h1, if_pos h]

/-- Value of `calculate_fee` strictly inside the reduction window. -/
lemma fee_mid {bal : ℚ} (h1 : MIN_AMICA_FOR_REDUCTION ≤ bal)
    (h2 : bal < MAX_AMICA_FOR_REDUCTION) :
    calculate_fee bal = (BASE_FEE - (BASE_FEE - MAX_DISCOUNTED_FEE) *
      ((bal - MIN_AMICA_FOR_REDUCTION) /
        (MAX_AMICA_FOR_REDUCTION - MIN_AMICA_FOR_REDUCTION)) ^ 2) / 10000 := by
  simp only [calculate_fee, if_neg (not_lt.mpr h1), if_neg (not_le.mpr h2)]

/-- Upper bound: the fee never exceeds the base fee. -/
lemma fee_le_base (bal : ℚ) : calculate_fee bal ≤ BASE_FEE / 10000 := by
  rcases lt_or_le bal MIN_AMICA_FOR_REDUCTION with h | h
  · rw [fee_below h]
  · rcases lt_or_le bal MAX_AMICA_FOR_REDUCTION with h2 | h2
    · rw [fee_mid h h2]
      simp only [MIN_AMICA_FOR_REDUCTION, MAX_AMICA_FOR_REDUCTION, BASE_FEE,
        MAX_DISCOUNTED_FEE] at *
      have hp : (0 : ℚ) ≤ ((bal - 1000) / (1000000 - 1000)) ^ 2 := sq_nonneg _
      linarith
    · rw [fee_above h2]
      simp only [BASE_FEE, MAX_DISCOUNTED_FEE]
      norm_num

/-- Claim C8: `calculate_fee` is non-increasing in the balance over the
whole domain, equals the base fee at and below the minimum threshold,
equals the fully discounted fee at and above the maximum threshold, and
strictly inside the window it equals the quadratic interpolation
`base - (base - min) * progress^2` and lies strictly between the two
boundary fees.  (All values carry the source's final `/ 10000` percentage
scaling.) -/
theorem fee_schedule_shape :
    (∀ b1 b2 : ℚ, b1 ≤ b2 → calculate_fee b2 ≤ calculate_fee b1) ∧
    (∀ bal : ℚ, bal ≤ MIN_AMICA_FOR_REDUCTION →
      calculate_fee bal = BASE_FEE / 10000) ∧
    (∀ bal : ℚ, MAX_AMICA_FOR_REDUCTION ≤ bal →
      calculate_fee bal = MAX_DISCOUNTED_FEE / 10000) ∧
    (∀ bal : ℚ, MIN_AMICA_FOR_REDUCTION < bal → bal < MAX_AMICA_FOR_REDUCTION →
      calculate_fee bal = (BASE_FEE - (BASE_FEE - MAX_DISCOUNTED_FEE) *
        ((bal - MIN_AMICA_FOR_REDUCTION) /
          (MAX_AMICA_FOR_REDUCTION - MIN_AMICA_FOR_REDUCTION)) ^ 2) / 10000 ∧
      MAX_DISCOUNTED_FEE / 10000 < calculate_fee bal ∧
      calculate_fee bal < BASE_FEE / 10000) := by
  refine ⟨?_, ?_, ?_, ?_⟩
  · intro b1 b2 h
    rcases lt_or_le b1 MIN_AMICA_FOR_REDUCTION with hb1 | hb1
    · rw [fee_below hb1]
      exact fee_le_base b2
    · rcases lt_or_le b1 MAX_AMICA_FOR_REDUCTION with hb1m | hb1m
      · rw [fee_mid hb1 hb1m]
        rcases lt_or_le b2 MAX_AMICA_FOR_REDUCTION with hb2m | hb2m
        · rw [fee_mid (le_trans hb1 h) hb2m]
          simp only [MIN_AMICA_FOR_REDUCTION, MAX_AMICA_FOR_REDUCTION,
            BASE_FEE, MAX_DISCOUNTED_FEE] at *
          have hp1 : (0 : ℚ) ≤ (b1 - 1000) / (1000000 - 1000) := by
            apply div_nonneg (by linarith) (by norm_num)
          have hple : (b1 - 1000) / (1000000 - 1000) ≤
              (b2 - 1000) / (1000000 - 1000) := by
            linarith
          have hsq := pow_le_pow_left₀ hp1 hple 2
          linarith
        · rw [fee_above hb2m]
          simp only [MIN_AMICA_FOR_REDUCTION, MAX_AMICA_FOR_REDUCTION,
            BASE_FEE, MAX_DISCOUNTED_FEE] at *
          have hp1 : (0 : ℚ) ≤ (b1 - 1000) / (1000000 - 1000) := by
            apply div_nonneg (by linarith) (by norm_num)
          have hp2 : (b1 - 1000) / (1000000 - 1000) < 1 := by
            rw [div_lt_one (by norm_num)]
            linarith
          have hsq : ((b1 - 1000) / (1000000 - 1000)) ^ 2 < 1 := by
            nlinarith
          linarith
      · rw [fee_above hb1m, fee_above (le_trans hb1m h)]
  · intro bal h
    rcases lt_or_le bal MIN_AMICA_FOR_REDUCTION with h1 | h1
    · exact fee_below h1
    · have hb : bal = MIN_AMICA_FOR_REDUCTION := le_antisymm h h1
      rw [hb, fee_mid le_rfl (by norm_num [MIN_AMICA_FOR_REDUCTION,
        MAX_AMICA_FOR_REDUCTION])]
      norm_num
  · intro bal h
    exact fee_above h
  · intro bal h1 h2
    refine ⟨fee_mid h1.le h2, ?_, ?_⟩
    · rw [fee_mid h1.le h2]
      simp only [MIN_AMICA_FOR_REDUCTION, MAX_AMICA_FOR_REDUCTION, BASE_FEE,
        MAX_DISCOUNTED_FEE] at *
      have hp1 : (0 : ℚ) ≤ (bal - 1000) / (1000000 - 1000) := by
        apply div_nonneg (by linarith) (by norm_num)
      have hp2 : (bal - 1000) / (1000000 - 1000) < 1 := by
        rw [div_lt_one (by norm_num)]
        linarith
      have hsq : ((bal - 1000) / (1000000 - 1000)) ^ 2 < 1 := by
        nlinarith
      linarith
    · rw [fee_mid h1.le h2]
      simp only [MIN_AMICA_FOR_REDUCTION, MAX_AMICA_FOR_REDUCTION, BASE_FEE,
        MAX_DISCOUNTED_FEE] at *
      have hp1 : (0 : ℚ) < (bal - 1000) / (1000000 - 1000) := by
        apply div_pos (by linarith) (by norm_num)
      have hsq : (0 : ℚ) < ((bal - 1000) / (1000000 - 1000)) ^ 2 :=
        pow_pos hp1 2
      linarith

/-- Witness for `fee_schedule_shape`: monotonicity across the window and
the exact boundary value at the minimum threshold. -/
theorem fee_schedule_shape_witness :
    calculate_fee 500000 ≤ calculate_fee 500 ∧
      calculate_fee 1000 = BASE_FEE / 10000 :=
  ⟨fee_schedule_shape.1 500 500000 (by norm_num),
    fee_schedule_shape.2.1 1000 (by norm_num [MIN_AMICA_FOR_REDUCTION])⟩

/-! ### Claim C2: buy/sell round trip -/

/-- Claim C2 (counterexample): at `reserveTotal = 1000`, `reserveSold = 1`,
`amountIn = 2`, the quoted buy yields `tokenOut = 1` and immediately selling
that token at the post-buy state returns `ethOut = 2`, which is not
strictly less than `amountIn = 2` — the 0.1% fee truncates to zero and the
round trip breaks even exactly. -/
theorem roundTrip_not_strict_loss :
    quoteBuy 2 1 1000 = some 1 ∧
    calculate_amount_out_for_sell 1 (1 + 1) 1000 = some 2 ∧
    ¬ ((2 : ℤ) < 2) := by
  refine ⟨by decide, by decide, by decide⟩

set_option maxHeartbeats 1000000 in
/-- Claim C2 (amended): for `0 < reserveSold < totalSupply`, positive
buffer, and a positive `amountIn` no larger than the current virtual ETH
reserve, quoting a buy and immediately quoting a sell of the resulting
`tokenOut` at the post-buy state yields `ethOut ≤ amountIn + 1`: the
trade spread is not a strict loss (the fee can truncate to zero, allowing
`ethOut = amountIn`, and the sell-side floor division can contribute one
extra unit), but it can never profit by more than one unit. -/
theorem roundTrip_ethOut_le (reserve_total reserve_sold amount_in vt ve t out : ℤ)
    (hs : 0 < reserve_sold) (hsT : reserve_sold < reserve_total)
    (ha : 0 < amount_in) (hb : 0 < virtual_buffer reserve_total)
    (hres : get_virtual_reserves reserve_sold reserve_total = some (vt, ve))
    (hain : amount_in ≤ ve)
    (hbuy : quoteBuy amount_in reserve_sold reserve_total = some t)
    (hsell : calculate_amount_out_for_sell t (reserve_sold + t) reserve_total =
      some out) :
    out ≤ amount_in + 1 := by
  have hvt0 : 0 < reserve_total - reserve_sold + virtual_buffer reserve_total := by
    linarith
  rw [gvr_some (ne_of_gt hvt0), Option.some.injEq, Prod.mk.injEq] at hres
  obtain ⟨hvt_eq, hve_eq⟩ := hres
  subst hvt_eq
  subst hve_eq
  have hK0 : 0 ≤ (reserve_total + virtual_buffer reserve_total) *
      (reserve_total + virtual_buffer reserve_total) := mul_self_nonneg _
  have hve0 : 0 ≤ ((reserve_total + virtual_buffer reserve_total) *
      (reserve_total + virtual_buffer reserve_total)).fdiv
      (reserve_total - reserve_sold + virtual_buffer reserve_total) := by
    rw [Int.fdiv_eq_ediv _ hvt0.le]
    exact Int.ediv_nonneg hK0 hvt0.le
  have hvea : ¬ (((reserve_total + virtual_buffer reserve_total) *
      (reserve_total + virtual_buffer reserve_total)).fdiv
      (reserve_total - reserve_sold + virtual_buffer reserve_total) +
      amount_in = 0) := by
    intro h
    linarith
  simp only [quoteBuy, if_neg (not_le.mpr hsT), gvr_some (ne_of_gt hvt0),
    if_neg hvea, Option.some.injEq] at hbuy
  -- abbreviations for the pre-buy state
  set B := virtual_buffer reserve_total with hB
  set K := (reserve_total + B) * (reserve_total + B) with hKdef
  set vt0 := reserve_total - reserve_sold + B with hvt0def
  rw [Int.fdiv_eq_ediv K hvt0.le] at hbuy hve0 hvea hain
  set ve0 := K / vt0 with hve0def
  -- facts about the bought amount t
  have hts : t ≤ reserve_total - reserve_sold := hbuy ▸ min_le_right _ _
  have hvea' : 0 < ve0 + amount_in := by linarith
  have htraw : t ≤ (vt0 * amount_in) / (ve0 + amount_in) := by
    rw [← hbuy]
    rw [Int.fdiv_eq_ediv _ hvea'.le]
    exact min_le_left _ _
  have ht0 : 0 ≤ t := by
    rw [← hbuy]
    refine le_min ?_ (by linarith)
    rw [Int.fdiv_eq_ediv _ hvea'.le]
    exact Int.ediv_nonneg (mul_nonneg hvt0.le ha.le) hvea'.le
  have hkey : t * (ve0 + amount_in) ≤ vt0 * amount_in := by
    calc t * (ve0 + amount_in)
        ≤ (vt0 * amount_in) / (ve0 + amount_in) * (ve0 + amount_in) :=
          mul_le_mul_of_nonneg_right htraw hvea'.le
      _ ≤ vt0 * amount_in := by
          have := int_mul_ediv_le (x := vt0 * amount_in) hvea'
          linarith [mul_comm ((vt0 * amount_in) / (ve0 + amount_in))
            (ve0 + amount_in)]
  -- the post-buy state
  have hvt1 : 0 < reserve_total - (reserve_sold + t) + B := by linarith
  have hnvt : reserve_total - (reserve_sold + t) + B + t = vt0 := by
    rw [hvt0def]; ring
  have hnvt' : ¬ (reserve_total - (reserve_sold + t) + virtual_buffer
      reserve_total + t = 0) := by
    rw [← hB, hnvt]
    exact ne_of_gt hvt0
  simp only [calculate_amount_out_for_sell, gvr_some (ne_of_gt hvt1),
    if_neg hnvt', Option.some.injEq] at hsell
  rw [← hB, ← hKdef, hnvt] at hsell
  set vt1 := reserve_total - (reserve_sold + t) + B with hvt1def
  rw [Int.fdiv_eq_ediv K hvt1.le] at hsell
  set ve1 := K / vt1 with hve1def
  rw [Int.fdiv_eq_ediv _ hvt0.le] at hsell
  set nve := vt1 * ve1 / vt0 with hnvedef
  have hve1n : 0 ≤ ve1 := Int.ediv_nonneg hK0 hvt1.le
  clear_value nve ve1 vt1 ve0 vt0 K B
  have hvt1vt0 : vt1 ≤ vt0 := by rw [hvt1def, hvt0def]; linarith
  -- the raw sell proceeds are nonnegative, so the fee is nonnegative
  have hnve_le : nve ≤ ve1 := by
    rw [hnvedef]
    calc vt1 * ve1 / vt0 ≤ vt0 * ve1 / vt0 :=
          Int.ediv_le_ediv hvt0 (mul_le_mul_of_nonneg_right hvt1vt0 hve1n)
      _ = ve1 := Int.mul_ediv_cancel_left ve1 (ne_of_gt hvt0)
  have hfee : 0 ≤ ((ve1 - nve) * SELL_FEE_BPS).fdiv BPS_DIVISOR := by
    rw [Int.fdiv_eq_ediv _ (by norm_num [BPS_DIVISOR])]
    refine Int.ediv_nonneg (mul_nonneg (by linarith) (by norm_num [SELL_FEE_BPS]))
      (by norm_num [BPS_DIVISOR])
  have hout_le : out ≤ ve1 - nve := by
    rw [← hsell]
    linarith
  have hvt1eq : vt1 = vt0 - t := by rw [hvt1def, hvt0def]; ring
  -- the central bound: t * ve1 ≤ (amount_in + 1) * vt0
  have hmain : t * ve1 ≤ (amount_in + 1) * vt0 := by
    rcases eq_or_lt_of_le ht0 with ht0' | htpos
    · rw [← ht0', zero_mul]
      positivity
    · have h2t : 2 * t ≤ vt0 := by
        have h1 : t * (amount_in + amount_in) ≤ t * (ve0 + amount_in) :=
          mul_le_mul_of_nonneg_left (by linarith) ht0
        have h2 : t * (amount_in + amount_in) ≤ vt0 * amount_in := le_trans h1 hkey
        nlinarith
      have hve1K : vt1 * ve1 ≤ K := by
        have := int_mul_ediv_le (x := K) hvt1
        rw [← hve1def] at this
        linarith
      have hKup : K ≤ vt0 * ve0 + vt0 - 1 := by
        have := int_lt_mul_ediv_add (x := K) hvt0
        rw [← hve0def] at this
        linarith
      have e1 : t * (vt1 * ve1) ≤ t * K :=
        mul_le_mul_of_nonneg_left hve1K htpos.le
      have e2 : t * K ≤ t * (vt0 * ve0 + vt0 - 1) :=
        mul_le_mul_of_nonneg_left hKup htpos.le
      have e3 : vt0 * (t * (ve0 + amount_in)) ≤ vt0 * (vt0 * amount_in) :=
        mul_le_mul_of_nonneg_left hkey hvt0.le
      have f1 : 0 ≤ vt0 * (vt0 - 2 * t) := mul_nonneg hvt0.le (by linarith)
      rw [hvt1eq] at e1
      have goal_mul : t * ve1 * (vt0 - t) ≤ (amount_in + 1) * vt0 * (vt0 - t) := by
        nlinarith [e1, e2, e3, f1, htpos.le]
      rw [← hvt1eq] at goal_mul
      exact le_of_mul_le_mul_right goal_mul hvt1
  -- transfer the bound through the floor division defining nve
  have hnve_ge : ve1 - (amount_in + 1) ≤ nve := by
    rw [hnvedef]
    rw [Int.le_ediv_iff_mul_le hvt0]
    rw [hvt1eq]
    nlinarith [hmain]
  linarith

/-- Witness for `roundTrip_ethOut_le` at `reserveTotal = 1000`,
`reserveSold = 1`, `amountIn = 2`: the bought token resells for `2 ≤ 3`. -/
theorem roundTrip_ethOut_le_witness :
    quoteBuy 2 1 1000 = some 1 ∧
    calculate_amount_out_for_sell 1 (1 + 1) 1000 = some 2 ∧
    (2 : ℤ) ≤ 2 + 1 :=
  ⟨by decide, by decide,
    roundTrip_ethOut_le 1000 1 2 1209 1211 1 2 (by decide) (by decide)
      (by decide) (by decide) (by decide) (by decide) (by decide) (by decide)⟩
